import Mathlib

/-!
Verification of the Prometheus receiver configuration logic
(`receiver/prometheusreceiver/config.go`).

The Go code is shallowly embedded: each Go function becomes a Lean
function over explicit data, the filesystem is a predicate
`String → Bool` telling which paths `os.Stat` succeeds on, and Go
errors become `Except String` values carrying the error text.

The receiver calls `url.ParseRequestURI` / `url.Parse` from the Go
standard library; the relevant parts of `net/url` (parsing restricted
to what determines success, scheme and host) are translated here as
well, working over `List Char` (the configuration strings involved are
ASCII, so byte-wise and character-wise processing agree).
-/

namespace PromReceiver

/-! ### Character-list string helpers (models of Go `strings` functions) -/

/-- Byte-wise lexicographic "less than" on character lists, as Go compares
strings. -/
def charListLess : List Char → List Char → Bool
  | [], [] => false
  | [], _ :: _ => true
  | _ :: _, [] => false
  | a :: as, b :: bs =>
    if a.toNat < b.toNat then true
    else if b.toNat < a.toNat then false
    else charListLess as bs

/-- Go string comparison `a < b`. -/
def strLess (a b : String) : Bool := charListLess a.data b.data

/-- `leadsWith pat s` models Go `strings.HasPrefix(s, pat)`. -/
def leadsWith : List Char → List Char → Bool
  | [], _ => true
  | _ :: _, [] => false
  | p :: ps, c :: cs => p = c && leadsWith ps cs

/-- `endsWith pat s` models Go `strings.HasSuffix(s, pat)`. -/
def endsWith (pat s : List Char) : Bool := leadsWith pat.reverse s.reverse

/-- `listContainsSub pat s` models Go `strings.Contains(s, pat)`. -/
def listContainsSub (pat : List Char) : List Char → Bool
  | [] => leadsWith pat []
  | c :: rest => leadsWith pat (c :: rest) || listContainsSub pat rest

/-- `idxOf? c s` models Go `strings.Index(s, c)` for a one-character
separator (`none` for Go result `-1`). -/
def idxOf? (c : Char) : List Char → Option Nat
  | [] => none
  | x :: rest => if x = c then some 0 else (idxOf? c rest).map (· + 1)

/-- `lastIdxOf? c s` models Go `strings.LastIndex(s, c)` for a
one-character separator. -/
def lastIdxOf? (c : Char) (l : List Char) : Option Nat :=
  match idxOf? c l.reverse with
  | none => none
  | some i => some (l.length - 1 - i)

/-- `subIndex? pat s` models Go `strings.Index(s, pat)`. -/
def subIndex? (pat : List Char) : List Char → Option Nat
  | [] => if leadsWith pat [] then some 0 else none
  | c :: rest =>
    if leadsWith pat (c :: rest) then some 0
    else (subIndex? pat rest).map (· + 1)

/-- Models Go `strings.Cut(s, sep)` for a one-character separator:
the part before the separator, the part after it, and whether it was
found. -/
def goCut (sep : Char) : List Char → List Char × List Char × Bool
  | [] => ([], [], false)
  | c :: rest =>
    if c = sep then ([], rest, true)
    else
      let r := goCut sep rest
      (c :: r.1, r.2.1, r.2.2)

/-- The single-quote character (written via its code point to keep the
source free of quote-escape sequences). -/
def squoteChar : Char := Char.ofNat 39

/-! ### Model of the relevant part of Go `net/url`

Translated from `src/net/url/url.go`: `ParseRequestURI` and `Parse`
follow `parse(rawURL, viaRequest)`; only the data the receiver inspects
(success, scheme, host) plus everything that decides success is kept.
-/

/-- Go `net/url` `ishex`. -/
def ishex (c : Char) : Bool :=
  c.isDigit || (decide (Char.ofNat 97 ≤ c) && decide (c ≤ Char.ofNat 102)) ||
    (decide (Char.ofNat 65 ≤ c) && decide (c ≤ Char.ofNat 70))

/-- Go `net/url` `unhex`. -/
def unhex (c : Char) : Nat :=
  if c.isDigit then c.toNat - 48
  else if decide (Char.ofNat 97 ≤ c) && decide (c ≤ Char.ofNat 102) then c.toNat - 97 + 10
  else if decide (Char.ofNat 65 ≤ c) && decide (c ≤ Char.ofNat 70) then c.toNat - 65 + 10
  else 0

/-- Go `net/url` `shouldEscape(c, mode)` for `encodeHost`/`encodeZone`
(the only modes at which `unescape` consults it). -/
def shouldEscapeHostZone (c : Char) : Bool :=
  if c.isUpper || c.isLower || c.isDigit then false
  else if [squoteChar, '!', '$', '&', '(', ')', '*', '+', ',', ';', '=',
      ':', '[', ']', '<', '>', '"'].contains c then false
  else if ['-', '_', '.', '~'].contains c then false
  else true

/-- The `encoding` modes of Go `net/url` that are exercised here. -/
inductive Encoding where
  | path
  | host
  | zone
  | userPassword
  | queryComponent
  | fragment
deriving DecidableEq, BEq

/-- Go `net/url` `unescape(s, mode)`: checks that percent escapes are
well formed (plus the host/zone character restrictions) and decodes
them; `none` models a returned error. -/
def unescape (mode : Encoding) : List Char → Option (List Char)
  | [] => some []
  | '%' :: c1 :: c2 :: rest =>
    if !(ishex c1 && ishex c2) then none
    else
      let v := unhex c1 * 16 + unhex c2
      if mode == Encoding.host && decide (unhex c1 < 8) && !(c1 = '2' && c2 = '5') then none
      else if mode == Encoding.zone && !(c1 = '2' && c2 = '5') && !(v = 32) &&
          shouldEscapeHostZone (Char.ofNat v) then none
      else
        match unescape mode rest with
        | none => none
        | some t => some (Char.ofNat v :: t)
  | ['%'] => none
  | ['%', _] => none
  | '+' :: rest =>
    match unescape mode rest with
    | none => none
    | some t => some ((if mode == Encoding.queryComponent then ' ' else '+') :: t)
  | c :: rest =>
    if (mode == Encoding.host || mode == Encoding.zone) && decide (c.toNat < 128) &&
        shouldEscapeHostZone c then none
    else
      match unescape mode rest with
      | none => none
      | some t => some (c :: t)

/-- Go `net/url` `validOptionalPort`. -/
def validOptionalPort : List Char → Bool
  | [] => true
  | ':' :: rest => rest.all (·.isDigit)
  | _ => false

/-- Go `net/url` `validUserinfo`. -/
def validUserinfo (s : List Char) : Bool :=
  s.all fun r =>
    r.isUpper || r.isLower || r.isDigit ||
      ['-', '.', '_', ':', '~', '!', '$', '&', squoteChar, '(', ')', '*',
        '+', ',', ';', '=', '%', '@'].contains r

/-- Go `net/url` `parseHost` (result restricted to the unescaped host). -/
def parseHost (host : List Char) : Option (List Char) :=
  if leadsWith ['['] host then
    match lastIdxOf? ']' host with
    | none => none
    | some i =>
      if !validOptionalPort (host.drop (i + 1)) then none
      else
        match subIndex? ['%', '2', '5'] (host.take i) with
        | some zone =>
          match unescape Encoding.host (host.take zone),
              unescape Encoding.zone ((host.take i).drop zone),
              unescape Encoding.host (host.drop i) with
          | some h1, some h2, some h3 => some (h1 ++ h2 ++ h3)
          | _, _, _ => none
        | none => unescape Encoding.host host
  else
    match lastIdxOf? ':' host with
    | some i =>
      if !validOptionalPort (host.drop i) then none
      else unescape Encoding.host host
    | none => unescape Encoding.host host

/-- Go `net/url` `parseAuthority` (result restricted to the host; the
userinfo is validated exactly as in the source and then discarded). -/
def parseAuthority (authority : List Char) : Option (List Char) :=
  match lastIdxOf? '@' authority with
  | none => parseHost authority
  | some i =>
    match parseHost (authority.drop (i + 1)) with
    | none => none
    | some host =>
      let userinfo := authority.take i
      if !validUserinfo userinfo then none
      else if !listContainsSub [':'] userinfo then
        match unescape Encoding.userPassword userinfo with
        | none => none
        | some _ => some host
      else
        let cutUP := goCut ':' userinfo
        match unescape Encoding.userPassword cutUP.1,
            unescape Encoding.userPassword cutUP.2.1 with
        | some _, some _ => some host
        | _, _ => none

/-- Loop of Go `net/url` `getScheme`; `first` records whether we are at
index `0`. `none` models a returned error. -/
def getSchemeAux (raw : List Char) (first : Bool) (acc : List Char) :
    List Char → Option (List Char × List Char)
  | [] => some ([], raw)
  | c :: rest =>
    if c.isUpper || c.isLower then getSchemeAux raw false (acc ++ [c]) rest
    else if c.isDigit || c = '+' || c = '-' || c = '.' then
      if first then some ([], raw)
      else getSchemeAux raw false (acc ++ [c]) rest
    else if c = ':' then
      if first then none
      else some (acc, rest)
    else some ([], raw)

/-- Go `net/url` `getScheme`. -/
def getScheme (raw : List Char) : Option (List Char × List Char) :=
  getSchemeAux raw true [] raw

/-- The fields of Go `url.URL` that the embedded code can observe. -/
structure GoURL where
  scheme : List Char
  opaquePart : List Char
  host : List Char
  path : List Char
  forceQuery : Bool
  rawQuery : List Char
  omitHost : Bool
  fragment : List Char
deriving DecidableEq

/-- Authority-and-path tail of Go `net/url` `parse` (everything after
the opaque/viaRequest branching). -/
def parseGoTail (viaRequest : Bool) (scheme rest : List Char) (forceQuery : Bool)
    (rawQuery : List Char) : Option GoURL :=
  if (!scheme.isEmpty || (!viaRequest && !leadsWith ['/', '/', '/'] rest)) &&
      leadsWith ['/', '/'] rest then
    let rest2 := rest.drop 2
    let split :=
      match idxOf? '/' rest2 with
      | some i => (rest2.take i, rest2.drop i)
      | none => (rest2, ([] : List Char))
    match parseAuthority split.1 with
    | none => none
    | some host =>
      match unescape Encoding.path split.2 with
      | none => none
      | some p => some ⟨scheme, [], host, p, forceQuery, rawQuery, false, []⟩
  else
    let omitH := !scheme.isEmpty && leadsWith ['/'] rest
    match unescape Encoding.path rest with
    | none => none
    | some p => some ⟨scheme, [], [], p, forceQuery, rawQuery, omitH, []⟩

/-- Go `net/url` `parse(rawURL, viaRequest)`; `none` models an error. -/
def parseGo (viaRequest : Bool) (rawURL : List Char) : Option GoURL :=
  if rawURL.any (fun c => decide (c.toNat < 32) || decide (c.toNat = 127)) then none
  else if rawURL.isEmpty && viaRequest then none
  else if rawURL = ['*'] then some ⟨[], [], [], ['*'], false, [], false, []⟩
  else
    match getScheme rawURL with
    | none => none
    | some schemeSplit =>
      let scheme := schemeSplit.1.map Char.toLower
      let afterScheme := schemeSplit.2
      let queryCut :=
        if endsWith ['?'] afterScheme && !listContainsSub ['?'] afterScheme.dropLast then
          (afterScheme.dropLast, true, ([] : List Char))
        else
          let cutQ := goCut '?' afterScheme
          (cutQ.1, false, cutQ.2.1)
      let rest := queryCut.1
      let forceQuery := queryCut.2.1
      let rawQuery := queryCut.2.2
      if !leadsWith ['/'] rest then
        if !scheme.isEmpty then some ⟨scheme, rest, [], [], forceQuery, rawQuery, false, []⟩
        else if viaRequest then none
        else
          let segment := (goCut '/' rest).1
          if listContainsSub [':'] segment then none
          else parseGoTail viaRequest scheme rest forceQuery rawQuery
      else parseGoTail viaRequest scheme rest forceQuery rawQuery

/-- Go `url.ParseRequestURI`. -/
def parseRequestURI (rawURL : List Char) : Option GoURL :=
  parseGo true rawURL

/-- Go `url.Parse`: split off the fragment, parse the rest with
`viaRequest = false`, then validate/decode the fragment. -/
def urlParse (rawURL : List Char) : Option GoURL :=
  let cutF := goCut '#' rawURL
  match parseGo false cutF.1 with
  | none => none
  | some url =>
    if cutF.2.1.isEmpty then some url
    else
      match unescape Encoding.fragment cutF.2.1 with
      | none => none
      | some f => some { url with fragment := f }

theorem urlParse_placeholder :
    urlParse ("http://placeholder".data) =
      some ⟨"http".data, [], "placeholder".data, [], false, [], false, []⟩ := rfl

/-! ### Data model of the receiver configuration

Translated from the type declarations in
`receiver/prometheusreceiver/config.go` (and the fields of the
Prometheus library types that the shown code reads).  The forbidden
feature lists only ever have their length inspected, so their elements
are modelled as `Unit`.
-/

/-- The filesystem as observed by `os.Stat`: `true` at a path means the
stat call succeeds. -/
def FS : Type := String → Bool

/-- `commonconfig.TLSConfig`, restricted to the fields the code reads. -/
structure TLSConfig where
  certFile : String
  keyFile : String
deriving DecidableEq

/-- `commonconfig.Authorization`, restricted to the fields the code
reads. -/
structure Authorization where
  credentialsFile : String
deriving DecidableEq

/-- `commonconfig.HTTPClientConfig`, restricted to the fields the code
reads. -/
structure HTTPClientConfig where
  authorization : Option Authorization
  tlsConfig : TLSConfig
deriving DecidableEq

/-- A scrape job's service-discovery entry.  The code type-switches on
`*kubernetes.SDConfig`; other variants (all of which also carry an HTTP
client configuration in the Prometheus schema, plus variants with no
such configuration) are represented so that the switch has something to
skip. -/
inductive ServiceDiscoveryConfig where
  | kubernetesSD (httpClientConfig : HTTPClientConfig)
  | httpSD (httpClientConfig : HTTPClientConfig)
  | staticSD
deriving DecidableEq

/-- `promconfig.ScrapeConfig`, restricted to the fields the code
reads. -/
structure ScrapeConfig where
  jobName : String
  httpClientConfig : HTTPClientConfig
  serviceDiscoveryConfigs : List ServiceDiscoveryConfig
deriving DecidableEq

/-- `promconfig.AlertingConfig`, restricted to the lengths the code
reads. -/
structure AlertingConfig where
  alertRelabelConfigs : List Unit
  alertmanagerConfigs : List Unit
deriving DecidableEq

/-- `PromConfig` (the receiver's redeclaration of `promconfig.Config`),
restricted to the fields the code reads. -/
structure PromConfig where
  scrapeConfigs : List ScrapeConfig
  remoteWriteConfigs : List Unit
  remoteReadConfigs : List Unit
  ruleFiles : List String
  alertingConfig : AlertingConfig
deriving DecidableEq

/-- The HTTP service-discovery configuration produced by the adapter
(`PromHTTPSDConfig` / `promHTTP.SDConfig`), restricted to the fields
the modelled decoder fills in. -/
structure PromHTTPSDConfig where
  url : String
  refreshInterval : Nat
deriving DecidableEq

/-- `TargetAllocator`: the endpoint comes from the squashed
`confighttp.ClientConfig`. -/
structure TargetAllocator where
  endpoint : String
  interval : Nat
  collectorID : String
  httpSDConfig : Option PromHTTPSDConfig
deriving DecidableEq

/-- The receiver's top-level `Config`. -/
structure Config where
  prometheusConfig : Option PromConfig
  trimMetricSuffixes : Bool
  useStartTimeMetric : Bool
  startTimeMetricRegex : String
  reportExtraScrapeMetrics : Bool
  targetAllocator : Option TargetAllocator
  enableProtobufNegotiation : Bool

/-! ### File checks (`checkFile`, `checkTLSConfig`) -/

/-- The error text of a failed `os.Stat` on a missing path. -/
def statNoExist (fn : String) : String :=
  "stat " ++ fn ++ ": no such file or directory"

/-- Go `%q` for the escape-free path strings that occur here. -/
def goQuote (s : String) : String := "\"" ++ s ++ "\""

/-- `checkFile` from `config.go`: an empty path is fine; otherwise the
path is stat-checked. -/
def checkFile (fs : FS) (fn : String) : Except String Unit :=
  if fn = "" then .ok ()
  else if fs fn then .ok ()
  else .error (statNoExist fn)

/-- The cert-file half of `checkTLSConfig`. -/
def checkCertFile (fs : FS) (tlsConfig : TLSConfig) : Except String Unit :=
  match checkFile fs tlsConfig.certFile with
  | .error e => .error ("error checking client cert file " ++ goQuote tlsConfig.certFile ++ ": " ++ e)
  | .ok _ => .ok ()

/-- The key-file half of `checkTLSConfig`. -/
def checkKeyFile (fs : FS) (tlsConfig : TLSConfig) : Except String Unit :=
  match checkFile fs tlsConfig.keyFile with
  | .error e => .error ("error checking client key file " ++ goQuote tlsConfig.keyFile ++ ": " ++ e)
  | .ok _ => .ok ()

/-- Go early-return sequencing: `if err := a; err != nil { return err }; b`. -/
def seqE (a b : Except String Unit) : Except String Unit :=
  match a with
  | .error e => .error e
  | .ok _ => b

/-- `checkTLSConfig` from `config.go`. -/
def checkTLSConfig (fs : FS) (tlsConfig : TLSConfig) : Except String Unit :=
  seqE (checkCertFile fs tlsConfig) (checkKeyFile fs tlsConfig)

/-! ### `PromConfig.Validate` -/

/-- The feature-violation collection loop of `PromConfig.Validate`, one
append per non-empty forbidden list, in source order. -/
def unsupportedFeatures (cfg : PromConfig) : List String :=
  (if !cfg.remoteWriteConfigs.isEmpty then ["remote_write"] else []) ++
    (if !cfg.remoteReadConfigs.isEmpty then ["remote_read"] else []) ++
    (if !cfg.ruleFiles.isEmpty then ["rule_files"] else []) ++
    (if !cfg.alertingConfig.alertRelabelConfigs.isEmpty then ["alert_config.relabel_configs"] else []) ++
    (if !cfg.alertingConfig.alertmanagerConfigs.isEmpty then ["alert_config.alertmanagers"] else [])

/-- Insertion step for `sortStrings`. -/
def insertSorted (s : String) : List String → List String
  | [] => [s]
  | t :: rest => if strLess s t then s :: t :: rest else t :: insertSorted s rest

/-- Go `sort.Strings` (ascending byte-wise lexicographic order). -/
def sortStrings : List String → List String
  | [] => []
  | s :: rest => insertSorted s (sortStrings rest)

/-- The authorization-credentials check of the scrape-config loop of
`PromConfig.Validate`. -/
def checkAuthorization (fs : FS) (hcc : HTTPClientConfig) : Except String Unit :=
  match hcc.authorization with
  | none => .ok ()
  | some auth =>
    match checkFile fs auth.credentialsFile with
    | .error e =>
      .error ("error checking authorization credentials file " ++
        goQuote auth.credentialsFile ++ ": " ++ e)
    | .ok _ => .ok ()

/-- The discovery loop of `PromConfig.Validate`: only the
`*kubernetes.SDConfig` variant is TLS-checked. -/
def checkSDList (fs : FS) : List ServiceDiscoveryConfig → Except String Unit
  | [] => .ok ()
  | ServiceDiscoveryConfig.kubernetesSD hcc :: rest =>
    seqE (checkTLSConfig fs hcc.tlsConfig) (checkSDList fs rest)
  | _ :: rest => checkSDList fs rest

/-- The per-job body of the scrape-config loop of
`PromConfig.Validate`. -/
def checkScrapeConfig (fs : FS) (sc : ScrapeConfig) : Except String Unit :=
  seqE (checkAuthorization fs sc.httpClientConfig)
    (seqE (checkTLSConfig fs sc.httpClientConfig.tlsConfig)
      (checkSDList fs sc.serviceDiscoveryConfigs))

/-- The scrape-config loop of `PromConfig.Validate`. -/
def checkScrapeConfigs (fs : FS) : List ScrapeConfig → Except String Unit
  | [] => .ok ()
  | sc :: rest => seqE (checkScrapeConfig fs sc) (checkScrapeConfigs fs rest)

/-- `PromConfig.Validate` from `config.go`. -/
def promValidate (fs : FS) (cfg : PromConfig) : Except String Unit :=
  if !(unsupportedFeatures cfg).isEmpty then
    .error ("unsupported features:\n\t" ++
      String.intercalate "\n\t" (sortStrings (unsupportedFeatures cfg)))
  else checkScrapeConfigs fs cfg.scrapeConfigs

/-! ### `TargetAllocator.Validate` and `Config.Validate` -/

/-- Go `strings.Contains` on `String`s. -/
def goStringsContains (s sub : String) : Bool := listContainsSub sub.data s.data

/-- `TargetAllocator.Validate` from `config.go`. -/
def taValidate (cfg : TargetAllocator) : Except String Unit :=
  match parseRequestURI cfg.endpoint.data with
  | none => .error ("TargetAllocator endpoint is not valid: " ++ cfg.endpoint)
  | some _ =>
    if cfg.collectorID = "" || goStringsContains cfg.collectorID "$\x7b" then
      .error "CollectorID is not a valid ID"
    else .ok ()

/-- `Config.Validate` from `config.go`. -/
def configValidate (cfg : Config) : Except String Unit :=
  if (match cfg.prometheusConfig with
      | none => true
      | some pc => pc.scrapeConfigs.isEmpty) && cfg.targetAllocator.isNone then
    .error "no Prometheus scrape_configs or target_allocator set"
  else .ok ()

/-! ### The adapter (`Unmarshal` methods)

`confmap.Conf.ToStringMap` yields a generic key/value tree; it is
modelled as an association list of `ConfVal` values.  The yaml
round-trip (`unmarshalYAML`: marshal the map, then strictly decode it
with the external library) is modelled as a direct strict decoder: a
key outside the known schema fails (yaml strict decode), and the
decoded `promHTTP.SDConfig` is validated exactly as the library's
`SDConfig.UnmarshalYAML` does (URL present, scheme `http`/`https`,
non-empty host).  The decoders cover the fields the receiver's code
observes; the library's remaining fields are outside the model.
-/

/-- A generic configuration value. -/
inductive ConfVal where
  | str : String → ConfVal
  | table : List (String × ConfVal) → ConfVal
  | list : List ConfVal → ConfVal

/-- A generic configuration mapping (Go `map[string]any`). -/
abbrev StringMap : Type := List (String × ConfVal)

/-- Lookup in a configuration mapping. -/
def lookupSM : StringMap → String → Option ConfVal
  | [], _ => none
  | kv :: rest, key => if kv.1 = key then some kv.2 else lookupSM rest key

/-- Go map assignment `m[k] = v`: replace the binding if present,
otherwise add it. -/
def setKey (m : StringMap) (k : String) (v : ConfVal) : StringMap :=
  if (lookupSM m k).isSome then
    m.map fun kv => if kv.1 = k then (k, v) else kv
  else m ++ [(k, v)]

/-- Model of Go `time.ParseDuration` restricted to a whole number with
one unit suffix, returning seconds. -/
def parseGoDuration (s : String) : Option Nat :=
  let digits := s.data.takeWhile (·.isDigit)
  let unitPart := s.data.dropWhile (·.isDigit)
  if digits.isEmpty then none
  else
    let n := digits.foldl (fun acc c => acc * 10 + (c.toNat - 48)) 0
    if unitPart = ['s'] then some n
    else if unitPart = ['m'] then some (n * 60)
    else if unitPart = ['h'] then some (n * 3600)
    else none

/-- The keys of `promHTTP.SDConfig` covered by the model. -/
def sdKnownKeys : List String := ["url", "refresh_interval"]

/-- A string-valued field with a default (yaml decoding into a field
pre-filled from `DefaultSDConfig`). -/
def getStrField (m : StringMap) (k dflt : String) : Except String String :=
  match lookupSM m k with
  | none => .ok dflt
  | some (ConfVal.str s) => .ok s
  | some _ =>
    .error "prometheus receiver: failed to unmarshal yaml to prometheus config object: type mismatch"

/-- Strict decode of an HTTP service-discovery block followed by the
library's `SDConfig.UnmarshalYAML` validation steps. -/
def decodeSDConfig (m : StringMap) : Except String PromHTTPSDConfig :=
  if !(m.all fun kv => sdKnownKeys.contains kv.1) then
    .error "prometheus receiver: failed to unmarshal yaml to prometheus config object: unknown fields"
  else
    match getStrField m "url" "" with
    | .error e => .error e
    | .ok urlv =>
      match getStrField m "refresh_interval" "1m" with
      | .error e => .error e
      | .ok ris =>
        match parseGoDuration ris with
        | none =>
          .error "prometheus receiver: failed to unmarshal yaml to prometheus config object: invalid duration"
        | some ri =>
          if urlv = "" then .error "URL is missing"
          else
            match urlParse urlv.data with
            | none => .error "invalid URL"
            | some u =>
              if !(u.scheme == "http".data || u.scheme == "https".data) then
                .error "URL scheme must be http or https"
              else if u.host.isEmpty then .error "host is missing in URL"
              else .ok { url := urlv, refreshInterval := ri }

/-- `PromHTTPSDConfig.Unmarshal` from `config.go`: an empty mapping
leaves the receiver untouched; otherwise the `url` key is force-set to
the placeholder and the mapping is round-tripped through the strict
decoder. -/
def promHTTPSDUnmarshal (cfg : PromHTTPSDConfig) (m : StringMap) :
    Except String PromHTTPSDConfig :=
  if m.isEmpty then .ok cfg
  else decodeSDConfig (setKey m "url" (ConfVal.str "http://placeholder"))

/-- The keys of `promconfig.Config` covered by the model. -/
def promKnownKeys : List String :=
  ["global", "runtime", "scrape_configs", "scrape_config_files", "rule_files",
    "remote_write", "remote_read", "alerting", "storage", "tracing"]

/-- Decode a list field whose elements the receiver never inspects. -/
def decodeUnitList (v : Option ConfVal) : Except String (List Unit) :=
  match v with
  | none => .ok []
  | some (ConfVal.list l) => .ok (l.map fun _ => ())
  | some _ =>
    .error "prometheus receiver: failed to unmarshal yaml to prometheus config object: type mismatch"

/-- Decode a list of strings. -/
def decodeStrList (v : Option ConfVal) : Except String (List String) :=
  match v with
  | none => .ok []
  | some (ConfVal.list l) =>
    l.mapM fun x =>
      match x with
      | ConfVal.str s => .ok s
      | _ =>
        .error "prometheus receiver: failed to unmarshal yaml to prometheus config object: type mismatch"
  | some _ =>
    .error "prometheus receiver: failed to unmarshal yaml to prometheus config object: type mismatch"

/-- Decode a `tls_config` block. -/
def decodeTLSConfig (v : Option ConfVal) : Except String TLSConfig :=
  match v with
  | none => .ok ⟨"", ""⟩
  | some (ConfVal.table t) =>
    match getStrField t "cert_file" "" with
    | .error e => .error e
    | .ok cf =>
      match getStrField t "key_file" "" with
      | .error e => .error e
      | .ok kf => .ok ⟨cf, kf⟩
  | some _ =>
    .error "prometheus receiver: failed to unmarshal yaml to prometheus config object: type mismatch"

/-- Decode an `authorization` block. -/
def decodeAuthorization (v : Option ConfVal) : Except String (Option Authorization) :=
  match v with
  | none => .ok none
  | some (ConfVal.table t) =>
    match getStrField t "credentials_file" "" with
    | .error e => .error e
    | .ok cf => .ok (some ⟨cf⟩)
  | some _ =>
    .error "prometheus receiver: failed to unmarshal yaml to prometheus config object: type mismatch"

/-- Decode one service-discovery element carrying an HTTP client
configuration. -/
def decodeSDElem (mk : HTTPClientConfig → ServiceDiscoveryConfig) (v : ConfVal) :
    Except String ServiceDiscoveryConfig :=
  match v with
  | ConfVal.table t =>
    match decodeAuthorization (lookupSM t "authorization") with
    | .error e => .error e
    | .ok auth =>
      match decodeTLSConfig (lookupSM t "tls_config") with
      | .error e => .error e
      | .ok tls => .ok (mk ⟨auth, tls⟩)
  | _ =>
    .error "prometheus receiver: failed to unmarshal yaml to prometheus config object: type mismatch"

/-- Decode a homogeneous service-discovery list. -/
def decodeSDElemList (mk : HTTPClientConfig → ServiceDiscoveryConfig)
    (v : Option ConfVal) : Except String (List ServiceDiscoveryConfig) :=
  match v with
  | none => .ok []
  | some (ConfVal.list l) => l.mapM (decodeSDElem mk)
  | some _ =>
    .error "prometheus receiver: failed to unmarshal yaml to prometheus config object: type mismatch"

/-- Decode one scrape job. -/
def decodeScrapeConfig (v : ConfVal) : Except String ScrapeConfig :=
  match v with
  | ConfVal.table t =>
    match getStrField t "job_name" "" with
    | .error e => .error e
    | .ok jn =>
      match decodeAuthorization (lookupSM t "authorization") with
      | .error e => .error e
      | .ok auth =>
        match decodeTLSConfig (lookupSM t "tls_config") with
        | .error e => .error e
        | .ok tls =>
          match decodeSDElemList ServiceDiscoveryConfig.kubernetesSD
              (lookupSM t "kubernetes_sd_configs") with
          | .error e => .error e
          | .ok ks =>
            match decodeSDElemList ServiceDiscoveryConfig.httpSD
                (lookupSM t "http_sd_configs") with
            | .error e => .error e
            | .ok hs => .ok ⟨jn, ⟨auth, tls⟩, ks ++ hs⟩
  | _ =>
    .error "prometheus receiver: failed to unmarshal yaml to prometheus config object: type mismatch"

/-- Strict decode of a full scrape-configuration block into
`PromConfig`. -/
def decodePromConfig (m : StringMap) : Except String PromConfig :=
  if !(m.all fun kv => promKnownKeys.contains kv.1) then
    .error "prometheus receiver: failed to unmarshal yaml to prometheus config object: unknown fields"
  else
    match ((match lookupSM m "scrape_configs" with
      | none => .ok []
      | some (ConfVal.list l) => l.mapM decodeScrapeConfig
      | some _ =>
        .error "prometheus receiver: failed to unmarshal yaml to prometheus config object: type mismatch") :
        Except String (List ScrapeConfig)) with
    | .error e => .error e
    | .ok scs =>
      match decodeUnitList (lookupSM m "remote_write") with
      | .error e => .error e
      | .ok rw =>
        match decodeUnitList (lookupSM m "remote_read") with
        | .error e => .error e
        | .ok rr =>
          match decodeStrList (lookupSM m "rule_files") with
          | .error e => .error e
          | .ok rf =>
            match ((match lookupSM m "alerting" with
              | none => .ok (⟨[], []⟩ : AlertingConfig)
              | some (ConfVal.table t) =>
                match decodeUnitList (lookupSM t "alert_relabel_configs") with
                | .error e => .error e
                | .ok arc =>
                  match decodeUnitList (lookupSM t "alertmanagers") with
                  | .error e => .error e
                  | .ok ams => .ok (⟨arc, ams⟩ : AlertingConfig)
              | some _ =>
                .error "prometheus receiver: failed to unmarshal yaml to prometheus config object: type mismatch") :
                Except String AlertingConfig) with
            | .error e => .error e
            | .ok alerting => .ok ⟨scs, rw, rr, rf, alerting⟩

/-- `PromConfig.Unmarshal` from `config.go`: an empty mapping leaves
the receiver untouched; otherwise the mapping is round-tripped through
the strict decoder. -/
def promConfigUnmarshal (cfg : PromConfig) (m : StringMap) : Except String PromConfig :=
  if m.isEmpty then .ok cfg
  else decodePromConfig m

/-! ### State-passing forms of the validators

The Go `Validate` methods run on pointer receivers; the translation
returns the receiver after the call so that mutation-freedom is a
statement, not a convention.  The bodies below repeat the translated
code with the receiver threaded through: no branch writes a field, so
each returns its input. -/

/-- `Config.Validate` with the receiver threaded through. -/
def configValidateSt (cfg : Config) : Except String Unit × Config :=
  (if (match cfg.prometheusConfig with
      | none => true
      | some pc => pc.scrapeConfigs.isEmpty) && cfg.targetAllocator.isNone then
    (.error "no Prometheus scrape_configs or target_allocator set", cfg)
  else (.ok (), cfg))

/-- `TargetAllocator.Validate` with the receiver threaded through. -/
def taValidateSt (cfg : TargetAllocator) : Except String Unit × TargetAllocator :=
  match parseRequestURI cfg.endpoint.data with
  | none => (.error ("TargetAllocator endpoint is not valid: " ++ cfg.endpoint), cfg)
  | some _ =>
    if cfg.collectorID = "" || goStringsContains cfg.collectorID "$\x7b" then
      (.error "CollectorID is not a valid ID", cfg)
    else (.ok (), cfg)

/-- `PromConfig.Validate` with the receiver threaded through. -/
def promValidateSt (fs : FS) (cfg : PromConfig) : Except String Unit × PromConfig :=
  if !(unsupportedFeatures cfg).isEmpty then
    (.error ("unsupported features:\n\t" ++
      String.intercalate "\n\t" (sortStrings (unsupportedFeatures cfg))), cfg)
  else (checkScrapeConfigs fs cfg.scrapeConfigs, cfg)

theorem lookupSM_append_absent (m : StringMap) (k : String) (v : ConfVal)
    (h : ∀ kv ∈ m, kv.1 ≠ k) : lookupSM (m ++ [(k, v)]) k = some v := by
  induction m with
  | nil =>
    show (if k = k then some v else lookupSM [] k) = some v
    rw [if_pos rfl]
  | cons kv0 rest ih =>
    show (if kv0.1 = k then some kv0.2 else lookupSM (rest ++ [(k, v)]) k) = some v
    rw [if_neg (h kv0 (List.mem_cons_self _ _))]
    exact ih fun kv hkv => h kv (List.mem_cons_of_mem _ hkv)

theorem lookupSM_append_found (m tail : StringMap) (k : String) (v : ConfVal)
    (h : lookupSM m k = some v) : lookupSM (m ++ tail) k = some v := by
  induction m with
  | nil => exact Option.noConfusion h
  | cons kv0 rest ih =>
    have h2 : (if kv0.1 = k then some kv0.2 else lookupSM rest k) = some v := h
    show (if kv0.1 = k then some kv0.2 else lookupSM (rest ++ tail) k) = some v
    by_cases hk : kv0.1 = k
    · rw [if_pos hk] at h2 ⊢
      exact h2
    · rw [if_neg hk] at h2 ⊢
      exact ih h2

theorem decodeSDConfig_ok (m2 : StringMap) (s0 : String) (n : Nat)
    (hall : (m2.all fun kv => sdKnownKeys.contains kv.1) = true)
    (hu : lookupSM m2 "url" = some (ConfVal.str "http://placeholder"))
    (hr : lookupSM m2 "refresh_interval" = some (ConfVal.str s0))
    (hp : parseGoDuration s0 = some n) :
    decodeSDConfig m2 = .ok ⟨"http://placeholder", n⟩ := by
  have h1 : getStrField m2 "url" "" = .ok "http://placeholder" := by
    unfold getStrField
    rw [hu]
  have h2 : getStrField m2 "refresh_interval" "1m" = .ok s0 := by
    unfold getStrField
    rw [hr]
  unfold decodeSDConfig
  rw [hall, h1, h2]
  show (match parseGoDuration s0 with
    | none =>
      (.error "prometheus receiver: failed to unmarshal yaml to prometheus config object: invalid duration" :
        Except String PromHTTPSDConfig)
    | some ri =>
      if "http://placeholder" = "" then .error "URL is missing"
      else
        match urlParse ("http://placeholder" : String).data with
        | none => .error "invalid URL"
        | some u =>
          if !(u.scheme == "http".data || u.scheme == "https".data) then
            .error "URL scheme must be http or https"
          else if u.host.isEmpty then .error "host is missing in URL"
          else .ok { url := "http://placeholder", refreshInterval := ri }) =
    .ok ⟨"http://placeholder", n⟩
  rw [hp]
  rfl

/-- C4: on a non-empty mapping, `PromHTTPSDConfig.Unmarshal` force-sets
the `url` key to `http://placeholder` before decoding, so a mapping
with no URL field decodes successfully (no URL-required error) and the
decoded URL is the placeholder. -/
theorem prom_http_sd_unmarshal_placeholder (sd0 : PromHTTPSDConfig) (m : StringMap)
    (hne : m ≠ [])
    (hurl : lookupSM m "url" = none)
    (hwf : ∀ kv ∈ m, kv.1 = "refresh_interval" ∧
      ∃ s, kv.2 = ConfVal.str s ∧ (parseGoDuration s).isSome = true) :
    promHTTPSDUnmarshal sd0 m =
      decodeSDConfig (setKey m "url" (ConfVal.str "http://placeholder")) ∧
    ∃ sd, promHTTPSDUnmarshal sd0 m = .ok sd ∧ sd.url = "http://placeholder" := by
  have h1 : promHTTPSDUnmarshal sd0 m =
      decodeSDConfig (setKey m "url" (ConfVal.str "http://placeholder")) := by
    unfold promHTTPSDUnmarshal
    cases m with
    | nil => exact absurd rfl hne
    | cons kv0 mrest => rfl
  refine ⟨h1, ?_⟩
  have hset : setKey m "url" (ConfVal.str "http://placeholder") =
      m ++ [("url", ConfVal.str "http://placeholder")] := by
    unfold setKey
    rw [hurl]
    rfl
  have hneq : ∀ kv ∈ m, kv.1 ≠ "url" := by
    intro kv hkv
    rw [(hwf kv hkv).1]
    decide
  have hu : lookupSM (m ++ [("url", ConfVal.str "http://placeholder")]) "url" =
      some (ConfVal.str "http://placeholder") := lookupSM_append_absent m _ _ hneq
  have hall : ((m ++ [("url", ConfVal.str "http://placeholder")]).all
      fun kv => sdKnownKeys.contains kv.1) = true := by
    rw [List.all_append, Bool.and_eq_true]
    refine ⟨?_, rfl⟩
    rw [List.all_eq_true]
    intro kv hkv
    rw [(hwf kv hkv).1]
    rfl
  cases m with
  | nil => exact absurd rfl hne
  | cons kv0 mrest =>
    obtain ⟨hk0, s0, hv0, hp0⟩ := hwf kv0 (List.mem_cons_self _ _)
    obtain ⟨n, hn⟩ := Option.isSome_iff_exists.mp hp0
    have hr0 : lookupSM (kv0 :: mrest) "refresh_interval" = some (ConfVal.str s0) := by
      show (if kv0.1 = "refresh_interval" then some kv0.2 else lookupSM mrest "refresh_interval") = _
      rw [if_pos hk0, hv0]
    have hr : lookupSM ((kv0 :: mrest) ++ [("url", ConfVal.str "http://placeholder")])
        "refresh_interval" = some (ConfVal.str s0) :=
      lookupSM_append_found _ _ _ _ hr0
    refine ⟨⟨"http://placeholder", n⟩, ?_, rfl⟩
    rw [h1, hset]
    exact decodeSDConfig_ok _ s0 n hall hu hr hn

/-- C4 witness: a URL-less discovery mapping decodes to the placeholder
URL. -/
theorem prom_http_sd_unmarshal_placeholder_witness :
    ∃ sd, promHTTPSDUnmarshal ⟨"", 0⟩ [("refresh_interval", ConfVal.str "30s")] = .ok sd ∧
      sd.url = "http://placeholder" :=
  (prom_http_sd_unmarshal_placeholder ⟨"", 0⟩ [("refresh_interval", ConfVal.str "30s")]
    (List.cons_ne_nil _ _) rfl
    (by
      intro kv hkv
      rw [List.mem_singleton] at hkv
      subst hkv
      exact ⟨rfl, "30s", rfl, rfl⟩)).2

/-! ### Error enumeration (all missing-file errors, in check order)

`fileErrList` lists every missing-file error a configuration harbours,
in the order the validation loop would encounter them (per job:
credentials, then the job's cert, then its key, then each kubernetes
discovery entry's cert and key).  The loop itself fail-fasts, i.e.
returns the head of this list. -/

/-- The errors a single `Except` result contributes. -/
def errList (r : Except String Unit) : List String :=
  match r with
  | .ok _ => []
  | .error e => [e]

/-- Return the first error of a list, or success. -/
def headOr : List String → Except String Unit
  | [] => .ok ()
  | e :: _ => .error e

/-- All missing-file errors of one TLS configuration. -/
def tlsErrList (fs : FS) (tlsConfig : TLSConfig) : List String :=
  errList (checkCertFile fs tlsConfig) ++ errList (checkKeyFile fs tlsConfig)

/-- All missing-file errors of a discovery list. -/
def sdErrList (fs : FS) : List ServiceDiscoveryConfig → List String
  | [] => []
  | ServiceDiscoveryConfig.kubernetesSD hcc :: rest =>
    tlsErrList fs hcc.tlsConfig ++ sdErrList fs rest
  | _ :: rest => sdErrList fs rest

/-- All missing-file errors of one scrape job. -/
def scErrList (fs : FS) (sc : ScrapeConfig) : List String :=
  errList (checkAuthorization fs sc.httpClientConfig) ++
    (tlsErrList fs sc.httpClientConfig.tlsConfig ++
      sdErrList fs sc.serviceDiscoveryConfigs)

/-- All missing-file errors of a scrape-job list. -/
def fileErrList (fs : FS) : List ScrapeConfig → List String
  | [] => []
  | sc :: rest => scErrList fs sc ++ fileErrList fs rest

theorem headOr_errList (r : Except String Unit) : headOr (errList r) = r := by
  cases r with
  | ok u => cases u; rfl
  | error e => rfl

theorem seqE_headOr (l1 l2 : List String) :
    seqE (headOr l1) (headOr l2) = headOr (l1 ++ l2) := by
  cases l1 <;> rfl

theorem checkTLSConfig_headOr (fs : FS) (tlsConfig : TLSConfig) :
    checkTLSConfig fs tlsConfig = headOr (tlsErrList fs tlsConfig) := by
  unfold checkTLSConfig tlsErrList
  conv_lhs =>
    rw [← headOr_errList (checkCertFile fs tlsConfig),
      ← headOr_errList (checkKeyFile fs tlsConfig)]
  exact seqE_headOr _ _

theorem checkSDList_headOr (fs : FS) (l : List ServiceDiscoveryConfig) :
    checkSDList fs l = headOr (sdErrList fs l) := by
  induction l with
  | nil => rfl
  | cons c rest ih =>
    cases c with
    | kubernetesSD hcc =>
      show seqE (checkTLSConfig fs hcc.tlsConfig) (checkSDList fs rest) = _
      rw [ih, checkTLSConfig_headOr, seqE_headOr]
      rfl
    | httpSD hcc => exact ih
    | staticSD => exact ih

theorem checkScrapeConfig_headOr (fs : FS) (sc : ScrapeConfig) :
    checkScrapeConfig fs sc = headOr (scErrList fs sc) := by
  unfold checkScrapeConfig scErrList
  conv_lhs =>
    rw [← headOr_errList (checkAuthorization fs sc.httpClientConfig),
      checkTLSConfig_headOr, checkSDList_headOr]
  rw [seqE_headOr, seqE_headOr]

theorem checkScrapeConfigs_headOr (fs : FS) (scs : List ScrapeConfig) :
    checkScrapeConfigs fs scs = headOr (fileErrList fs scs) := by
  induction scs with
  | nil => rfl
  | cons sc rest ih =>
    show seqE (checkScrapeConfig fs sc) (checkScrapeConfigs fs rest) = _
    rw [ih, checkScrapeConfig_headOr, seqE_headOr]
    rfl

/-! ### Claim theorems -/

/-- C1: `Config.Validate` returns the incompleteness error exactly when
the scrape-config set is absent or empty and the target allocator is
absent; in particular any configuration with a target allocator passes
this check, whatever its scrape configs. -/
theorem config_validate_incompleteness (cfg : Config) :
    (configValidate cfg = .error "no Prometheus scrape_configs or target_allocator set" ↔
      ((cfg.prometheusConfig = none ∨
          ∃ pc, cfg.prometheusConfig = some pc ∧ pc.scrapeConfigs = []) ∧
        cfg.targetAllocator = none)) ∧
    (cfg.targetAllocator.isSome = true → configValidate cfg = .ok ()) := by
  constructor
  · constructor
    · intro h
      unfold configValidate at h
      split at h
      · rename_i hcond
        rw [Bool.and_eq_true] at hcond
        obtain ⟨h1, h2⟩ := hcond
        refine ⟨?_, Option.isNone_iff_eq_none.mp h2⟩
        cases hpc : cfg.prometheusConfig with
        | none => exact Or.inl rfl
        | some pc =>
          rw [hpc] at h1
          exact Or.inr ⟨pc, rfl, List.isEmpty_iff.mp h1⟩
      · exact absurd h (by simp)
    · rintro ⟨h1, h2⟩
      unfold configValidate
      have hm : (match cfg.prometheusConfig with
          | none => true
          | some pc => pc.scrapeConfigs.isEmpty) = true := by
        rcases h1 with h | ⟨pc, hpc, hsc⟩
        · rw [h]
        · rw [hpc]
          simpa [List.isEmpty_iff] using hsc
      rw [hm, h2]
      rfl
  · intro h
    unfold configValidate
    have hn : cfg.targetAllocator.isNone = false := by
      rcases Option.isSome_iff_exists.mp h with ⟨ta, hta⟩
      rw [hta]
      rfl
    rw [hn, Bool.and_false]
    rfl

/-- C1 witness: a configuration with a target allocator and an empty
scrape-config list passes `Config.Validate`. -/
theorem config_validate_incompleteness_witness :
    configValidate ⟨some ⟨[], [], [], [], ⟨[], []⟩⟩, false, false, "", false,
      some ⟨"http://localhost:8080", 0, "abc", none⟩, false⟩ = .ok () :=
  (config_validate_incompleteness _).2 rfl

/-- C3: `TargetAllocator.Validate` succeeds exactly when the endpoint
parses as an absolute request URI and the collector id is non-empty and
free of the unresolved-template marker; the four concrete cases of the
spec behave as stated. -/
theorem target_allocator_validate_spec :
    (∀ cfg : TargetAllocator,
      taValidate cfg = .ok () ↔
        ((parseRequestURI cfg.endpoint.data).isSome = true ∧ cfg.collectorID ≠ "" ∧
          goStringsContains cfg.collectorID "$\x7b" = false)) ∧
    taValidate ⟨"not a url", 0, "abc", none⟩ =
      .error "TargetAllocator endpoint is not valid: not a url" ∧
    taValidate ⟨"http://localhost:8080", 0, "abc", none⟩ = .ok () ∧
    taValidate ⟨"http://localhost:8080", 0, "$\x7bPOD_NAME\x7d", none⟩ =
      .error "CollectorID is not a valid ID" ∧
    taValidate ⟨"http://localhost:8080", 0, "", none⟩ =
      .error "CollectorID is not a valid ID" := by
  refine ⟨?_, rfl, rfl, rfl, rfl⟩
  intro cfg
  unfold taValidate
  cases hp : parseRequestURI cfg.endpoint.data with
  | none =>
    simp only [hp, Option.isSome_none]
    constructor
    · intro h
      exact absurd h (by simp)
    · rintro ⟨h, _⟩
      cases h
  | some u =>
    simp only [hp, Option.isSome_some, true_and]
    split
    · rename_i hcond
      rw [Bool.or_eq_true] at hcond
      constructor
      · intro h
        exact absurd h (by simp)
      · rintro ⟨hne, hnc⟩
        rcases hcond with hc | hc
        · exact absurd (of_decide_eq_true hc) hne
        · rw [hc] at hnc
          cases hnc
    · rename_i hcond
      rw [Bool.or_eq_true, not_or] at hcond
      obtain ⟨hc1, hc2⟩ := hcond
      constructor
      · intro _
        refine ⟨fun heq => hc1 (by rw [heq]; rfl), ?_⟩
        cases hcc : goStringsContains cfg.collectorID "$\x7b" with
        | false => rfl
        | true => exact absurd hcc hc2
      · intro _
        rfl

/-- C3 witness: the characterization applied at a concrete passing
allocator configuration. -/
theorem target_allocator_validate_spec_witness :
    taValidate ⟨"http://localhost:8080", 0, "abc", none⟩ = .ok () :=
  (target_allocator_validate_spec.1 ⟨"http://localhost:8080", 0, "abc", none⟩).mpr
    ⟨rfl, by decide, rfl⟩

/-- C5: the empty path always passes `checkFile` (for every filesystem),
a non-empty path is stat-checked, and the missing-file errors of the
credential, cert and key checks each name the offending path with a
field-specific message. -/
theorem file_existence_checks (fs : FS) (fn fk : String) :
    checkFile fs "" = .ok () ∧
    (fn ≠ "" → fs fn = true → checkFile fs fn = .ok ()) ∧
    (fn ≠ "" → fs fn = false → checkFile fs fn = .error (statNoExist fn)) ∧
    (fn ≠ "" → fs fn = false →
      checkTLSConfig fs ⟨fn, fk⟩ =
        .error ("error checking client cert file " ++ goQuote fn ++ ": " ++ statNoExist fn)) ∧
    (fk ≠ "" → fs fk = false →
      checkTLSConfig fs ⟨"", fk⟩ =
        .error ("error checking client key file " ++ goQuote fk ++ ": " ++ statNoExist fk)) ∧
    (fn ≠ "" → fs fn = false →
      checkAuthorization fs ⟨some ⟨fn⟩, ⟨"", ""⟩⟩ =
        .error ("error checking authorization credentials file " ++ goQuote fn ++ ": " ++
          statNoExist fn)) := by
  have key : ∀ g : String, g ≠ "" → fs g = false → checkFile fs g = .error (statNoExist g) := by
    intro g hg1 hg2
    unfold checkFile
    rw [if_neg hg1, if_neg (show ¬(fs g = true) by rw [hg2]; exact Bool.false_ne_true)]
  refine ⟨rfl, ?_, ?_, ?_, ?_, ?_⟩ <;> intro h1 h2
  · unfold checkFile
    rw [if_neg h1, if_pos h2]
  · exact key fn h1 h2
  · unfold checkTLSConfig checkCertFile
    show seqE (match checkFile fs fn with
      | .error e => .error ("error checking client cert file " ++ goQuote fn ++ ": " ++ e)
      | .ok _ => .ok ()) _ = _
    rw [key fn h1 h2]
    rfl
  · unfold checkTLSConfig checkCertFile checkKeyFile
    show seqE (match checkFile fs "" with
      | .error e => .error ("error checking client cert file " ++ goQuote "" ++ ": " ++ e)
      | .ok _ => .ok ())
      (match checkFile fs fk with
      | .error e => .error ("error checking client key file " ++ goQuote fk ++ ": " ++ e)
      | .ok _ => .ok ()) = _
    rw [key fk h1 h2]
    rfl
  · unfold checkAuthorization
    show (match checkFile fs fn with
      | .error e =>
        Except.error ("error checking authorization credentials file " ++ goQuote fn ++ ": " ++ e)
      | .ok _ => Except.ok ()) = _
    rw [key fn h1 h2]

/-- C5 witness: the file checks evaluated on an all-missing filesystem
at concrete paths. -/
theorem file_existence_checks_witness :
    checkFile (fun _ => false) "" = .ok () ∧
    checkFile (fun _ => false) "/a" = .error (statNoExist "/a") ∧
    checkTLSConfig (fun _ => false) ⟨"", "/b"⟩ =
      .error ("error checking client key file " ++ goQuote "/b" ++ ": " ++ statNoExist "/b") :=
  ⟨(file_existence_checks (fun _ => false) "/a" "/b").1,
    (file_existence_checks (fun _ => false) "/a" "/b").2.2.1 (by decide) rfl,
    (file_existence_checks (fun _ => false) "/a" "/b").2.2.2.2.1 (by decide) rfl⟩

/-- C7: both adapter `Unmarshal` operations, given an empty mapping,
succeed and leave the receiver object unchanged. -/
theorem unmarshal_empty_map_identity (pc : PromConfig) (sd : PromHTTPSDConfig) :
    promConfigUnmarshal pc [] = .ok pc ∧ promHTTPSDUnmarshal sd [] = .ok sd :=
  ⟨rfl, rfl⟩

theorem configValidateSt_eq (cfg : Config) :
    configValidateSt cfg = (configValidate cfg, cfg) := by
  unfold configValidateSt configValidate
  split <;> rfl

theorem taValidateSt_eq (cfg : TargetAllocator) :
    taValidateSt cfg = (taValidate cfg, cfg) := by
  unfold taValidateSt taValidate
  cases parseRequestURI cfg.endpoint.data with
  | none => rfl
  | some u =>
    show (if (decide (cfg.collectorID = "") || goStringsContains cfg.collectorID "$\x7b") = true then
        ((Except.error "CollectorID is not a valid ID" : Except String Unit), cfg)
      else (Except.ok (), cfg)) =
      ((if (decide (cfg.collectorID = "") || goStringsContains cfg.collectorID "$\x7b") = true then
        (Except.error "CollectorID is not a valid ID" : Except String Unit)
      else Except.ok ()), cfg)
    split <;> rfl

theorem promValidateSt_eq (fs : FS) (cfg : PromConfig) :
    promValidateSt fs cfg = (promValidate fs cfg, cfg) := by
  unfold promValidateSt promValidate
  split <;> rfl

/-- The five forbidden-feature labels, in lexicographic order. -/
def featureLabelsSorted : List String :=
  ["alert_config.alertmanagers", "alert_config.relabel_configs", "remote_read",
    "remote_write", "rule_files"]

/-- C2: whenever any forbidden feature list is non-empty,
`PromConfig.Validate` fails and the error text lists exactly the
violated feature labels, in lexicographic order. -/
theorem prom_validate_unsupported_features (fs : FS) (cfg : PromConfig)
    (h : unsupportedFeatures cfg ≠ []) :
    promValidate fs cfg =
      .error ("unsupported features:\n\t" ++
        String.intercalate "\n\t"
          (featureLabelsSorted.filter fun l => (unsupportedFeatures cfg).contains l)) := by
  obtain ⟨scs, rwc, rrc, rfc, al⟩ := cfg
  obtain ⟨arc, ams⟩ := al
  cases rwc <;> cases rrc <;> cases rfc <;> cases arc <;> cases ams <;>
    first
      | exact absurd rfl h
      | rfl

/-- C2 witness: remote read plus rule files yields the two labels in
sorted order in one aggregated error. -/
theorem prom_validate_unsupported_features_witness :
    promValidate (fun _ => false) ⟨[], [], [()], ["r.yml"], ⟨[], []⟩⟩ =
      .error "unsupported features:\n\tremote_read\n\trule_files" :=
  (prom_validate_unsupported_features (fun _ => false) ⟨[], [], [()], ["r.yml"], ⟨[], []⟩⟩
    (by decide)).trans rfl

/-- C10: if a forbidden feature is present the aggregated feature error
is returned without consulting the filesystem at all; otherwise the
result is the first entry, in check order, of the full missing-file
error enumeration. -/
theorem prom_validate_phase_order (fs fs2 : FS) (cfg : PromConfig) :
    (unsupportedFeatures cfg ≠ [] →
      promValidate fs cfg = promValidate fs2 cfg ∧
        promValidate fs cfg =
          .error ("unsupported features:\n\t" ++
            String.intercalate "\n\t" (sortStrings (unsupportedFeatures cfg)))) ∧
    (unsupportedFeatures cfg = [] →
      promValidate fs cfg = headOr (fileErrList fs cfg.scrapeConfigs)) := by
  constructor
  · intro h
    have hb : (unsupportedFeatures cfg).isEmpty = false := by
      cases hu : unsupportedFeatures cfg with
      | nil => exact absurd hu h
      | cons a l => rfl
    unfold promValidate
    rw [hb]
    exact ⟨rfl, rfl⟩
  · intro h
    unfold promValidate
    rw [h]
    exact checkScrapeConfigs_headOr fs cfg.scrapeConfigs

/-- C10 witness: a feature violation masks a missing credentials file
(the result does not depend on the filesystem), and without the
violation the validator returns the head of the error enumeration. -/
theorem prom_validate_phase_order_witness :
    promValidate (fun _ => false) ⟨[⟨"j", ⟨some ⟨"/c"⟩, ⟨"", ""⟩⟩, []⟩], [()], [], [], ⟨[], []⟩⟩ =
      promValidate (fun _ => true) ⟨[⟨"j", ⟨some ⟨"/c"⟩, ⟨"", ""⟩⟩, []⟩], [()], [], [], ⟨[], []⟩⟩ ∧
    promValidate (fun _ => false) ⟨[⟨"j", ⟨some ⟨"/c"⟩, ⟨"", ""⟩⟩, []⟩], [], [], [], ⟨[], []⟩⟩ =
      headOr (fileErrList (fun _ => false) [⟨"j", ⟨some ⟨"/c"⟩, ⟨"", ""⟩⟩, []⟩]) :=
  ⟨((prom_validate_phase_order (fun _ => false) (fun _ => true)
      ⟨[⟨"j", ⟨some ⟨"/c"⟩, ⟨"", ""⟩⟩, []⟩], [()], [], [], ⟨[], []⟩⟩).1 (by decide)).1,
    (prom_validate_phase_order (fun _ => false) (fun _ => true)
      ⟨[⟨"j", ⟨some ⟨"/c"⟩, ⟨"", ""⟩⟩, []⟩], [], [], [], ⟨[], []⟩⟩).2 (by decide)⟩

/-! ### Substring facts about the missing-file error texts -/

theorem leadsWith_refl (p : List Char) : leadsWith p p = true := by
  induction p with
  | nil => rfl
  | cons c cs ih => simp [leadsWith, ih]

theorem leadsWith_extend (p : List Char) (l t : List Char) (h : leadsWith p l = true) :
    leadsWith p (l ++ t) = true := by
  induction p generalizing l with
  | nil => rfl
  | cons c cs ih =>
    cases l with
    | nil => exact absurd h (by simp [leadsWith])
    | cons d ds =>
      have h2 : (decide (c = d) && leadsWith cs ds) = true := h
      rw [Bool.and_eq_true] at h2
      show (decide (c = d) && leadsWith cs (ds ++ t)) = true
      rw [Bool.and_eq_true]
      exact ⟨h2.1, ih ds h2.2⟩

theorem containsSub_nil (t : List Char) : listContainsSub [] t = true := by
  cases t <;> rfl

theorem containsSub_append_left (p l t : List Char) (h : listContainsSub p l = true) :
    listContainsSub p (l ++ t) = true := by
  induction l with
  | nil =>
    cases p with
    | nil => exact containsSub_nil t
    | cons c cs => exact absurd h (by simp [listContainsSub, leadsWith])
  | cons c rest ih =>
    have h2 : (leadsWith p (c :: rest) || listContainsSub p rest) = true := h
    rw [Bool.or_eq_true] at h2
    show (leadsWith p (c :: (rest ++ t)) || listContainsSub p (rest ++ t)) = true
    rw [Bool.or_eq_true]
    rcases h2 with h2 | h2
    · exact Or.inl (leadsWith_extend p (c :: rest) t h2)
    · exact Or.inr (ih h2)

theorem containsSub_append_right (p l t : List Char) (h : listContainsSub p t = true) :
    listContainsSub p (l ++ t) = true := by
  induction l with
  | nil => exact h
  | cons c rest ih =>
    show (leadsWith p (c :: (rest ++ t)) || listContainsSub p (rest ++ t)) = true
    rw [Bool.or_eq_true]
    exact Or.inr ih

theorem containsSub_self (p : List Char) : listContainsSub p p = true := by
  cases p with
  | nil => rfl
  | cons c rest =>
    show (leadsWith (c :: rest) (c :: rest) || _) = true
    rw [leadsWith_refl]
    rfl

theorem strData_append (a b : String) : (a ++ b).data = a.data ++ b.data := rfl

theorem goStringsContains_append_left (s t pat : String)
    (h : goStringsContains s pat = true) : goStringsContains (s ++ t) pat = true := by
  unfold goStringsContains at h ⊢
  rw [strData_append]
  exact containsSub_append_left _ _ _ h

theorem goStringsContains_append_right (s t pat : String)
    (h : goStringsContains t pat = true) : goStringsContains (s ++ t) pat = true := by
  unfold goStringsContains at h ⊢
  rw [strData_append]
  exact containsSub_append_right _ _ _ h

theorem goStringsContains_self (s : String) : goStringsContains s s = true :=
  containsSub_self s.data

theorem errMsg_contains_quote (A fn T : String) :
    goStringsContains (A ++ goQuote fn ++ ": " ++ T) (goQuote fn) = true := by
  apply goStringsContains_append_left
  apply goStringsContains_append_left
  exact goStringsContains_append_right _ _ _ (goStringsContains_self _)

theorem errMsg_contains_label (A fn T label : String)
    (hA : goStringsContains A label = true) :
    goStringsContains (A ++ goQuote fn ++ ": " ++ T) label = true := by
  apply goStringsContains_append_left
  apply goStringsContains_append_left
  exact goStringsContains_append_left _ _ _ hA

/-! ### Shapes of the missing-file errors -/

theorem checkFile_cases (fs : FS) (fn : String) :
    checkFile fs fn = .ok () ∨
      (fn ≠ "" ∧ fs fn = false ∧ checkFile fs fn = .error (statNoExist fn)) := by
  by_cases h1 : fn = ""
  · left
    unfold checkFile
    rw [if_pos h1]
  · cases h2 : fs fn with
    | true =>
      left
      unfold checkFile
      rw [if_neg h1, if_pos h2]
    | false =>
      right
      refine ⟨h1, rfl, ?_⟩
      unfold checkFile
      rw [if_neg h1, if_neg (show ¬(fs fn = true) by rw [h2]; exact Bool.false_ne_true)]

theorem errList_singleton (r : Except String Unit) (e : String) (he : e ∈ errList r) :
    r = .error e := by
  cases r with
  | ok u => exact absurd he (List.not_mem_nil e)
  | error msg =>
    have h : e = msg := List.mem_singleton.mp he
    rw [h]

theorem checkCertFile_shape (fs : FS) (tls : TLSConfig) (e : String)
    (he : e ∈ errList (checkCertFile fs tls)) :
    ∃ fn, fn ≠ "" ∧ fs fn = false ∧
      e = "error checking client cert file " ++ goQuote fn ++ ": " ++ statNoExist fn := by
  have hr := errList_singleton _ _ he
  unfold checkCertFile at hr
  rcases checkFile_cases fs tls.certFile with h | ⟨h1, h2, h3⟩
  · rw [h] at hr
    exact Except.noConfusion hr
  · rw [h3] at hr
    injection hr with h4
    exact ⟨tls.certFile, h1, h2, h4.symm⟩

theorem checkKeyFile_shape (fs : FS) (tls : TLSConfig) (e : String)
    (he : e ∈ errList (checkKeyFile fs tls)) :
    ∃ fn, fn ≠ "" ∧ fs fn = false ∧
      e = "error checking client key file " ++ goQuote fn ++ ": " ++ statNoExist fn := by
  have hr := errList_singleton _ _ he
  unfold checkKeyFile at hr
  rcases checkFile_cases fs tls.keyFile with h | ⟨h1, h2, h3⟩
  · rw [h] at hr
    exact Except.noConfusion hr
  · rw [h3] at hr
    injection hr with h4
    exact ⟨tls.keyFile, h1, h2, h4.symm⟩

theorem checkAuthorization_shape (fs : FS) (hcc : HTTPClientConfig) (e : String)
    (he : e ∈ errList (checkAuthorization fs hcc)) :
    ∃ fn, fn ≠ "" ∧ fs fn = false ∧
      e = "error checking authorization credentials file " ++ goQuote fn ++ ": " ++
        statNoExist fn := by
  have hr := errList_singleton _ _ he
  unfold checkAuthorization at hr
  cases ha : hcc.authorization with
  | none =>
    rw [ha] at hr
    exact Except.noConfusion hr
  | some auth =>
    rw [ha] at hr
    have hr2 : (match checkFile fs auth.credentialsFile with
        | Except.error e2 =>
          Except.error ("error checking authorization credentials file " ++
            goQuote auth.credentialsFile ++ ": " ++ e2)
        | Except.ok _ => Except.ok ()) = Except.error e := hr
    rcases checkFile_cases fs auth.credentialsFile with h | ⟨h1, h2, h3⟩
    · rw [h] at hr2
      exact Except.noConfusion hr2
    · rw [h3] at hr2
      injection hr2 with h4
      exact ⟨auth.credentialsFile, h1, h2, h4.symm⟩

/-- The disjunction of the three error shapes. -/
def MissingFileShape (fs : FS) (e : String) : Prop :=
  ∃ fn, fn ≠ "" ∧ fs fn = false ∧
    (e = "error checking authorization credentials file " ++ goQuote fn ++ ": " ++ statNoExist fn ∨
      e = "error checking client cert file " ++ goQuote fn ++ ": " ++ statNoExist fn ∨
      e = "error checking client key file " ++ goQuote fn ++ ": " ++ statNoExist fn)

theorem tlsErrList_shape (fs : FS) (tls : TLSConfig) (e : String)
    (he : e ∈ tlsErrList fs tls) : MissingFileShape fs e := by
  rcases List.mem_append.mp he with h | h
  · obtain ⟨fn, h1, h2, h3⟩ := checkCertFile_shape fs tls e h
    exact ⟨fn, h1, h2, Or.inr (Or.inl h3)⟩
  · obtain ⟨fn, h1, h2, h3⟩ := checkKeyFile_shape fs tls e h
    exact ⟨fn, h1, h2, Or.inr (Or.inr h3)⟩

theorem sdErrList_shape (fs : FS) (l : List ServiceDiscoveryConfig) (e : String)
    (he : e ∈ sdErrList fs l) : MissingFileShape fs e := by
  induction l with
  | nil => exact absurd he (List.not_mem_nil e)
  | cons c rest ih =>
    cases c with
    | kubernetesSD hcc =>
      rcases List.mem_append.mp he with h | h
      · exact tlsErrList_shape fs hcc.tlsConfig e h
      · exact ih h
    | httpSD hcc => exact ih he
    | staticSD => exact ih he

theorem scErrList_shape (fs : FS) (sc : ScrapeConfig) (e : String)
    (he : e ∈ scErrList fs sc) : MissingFileShape fs e := by
  rcases List.mem_append.mp he with h | h
  · obtain ⟨fn, h1, h2, h3⟩ := checkAuthorization_shape fs sc.httpClientConfig e h
    exact ⟨fn, h1, h2, Or.inl h3⟩
  · rcases List.mem_append.mp h with h | h
    · exact tlsErrList_shape fs sc.httpClientConfig.tlsConfig e h
    · exact sdErrList_shape fs sc.serviceDiscoveryConfigs e h

theorem fileErrList_shape (fs : FS) (scs : List ScrapeConfig) (e : String)
    (he : e ∈ fileErrList fs scs) : MissingFileShape fs e := by
  induction scs with
  | nil => exact absurd he (List.not_mem_nil e)
  | cons sc rest ih =>
    rcases List.mem_append.mp he with h | h
    · exact scErrList_shape fs sc e h
    · exact ih h

/-- C6 counterexample: a missing credentials file on job `myjob` yields
an error that names the path but nowhere contains the job identity. -/
theorem missing_file_error_no_job_identity_cex :
    promValidate (fun _ => false)
      ⟨[⟨"myjob", ⟨some ⟨"/nope"⟩, ⟨"", ""⟩⟩, []⟩], [], [], [], ⟨[], []⟩⟩ =
      .error ("error checking authorization credentials file \"/nope\": " ++
        "stat /nope: no such file or directory") ∧
    goStringsContains ("error checking authorization credentials file \"/nope\": " ++
      "stat /nope: no such file or directory") "myjob" = false :=
  ⟨rfl, by decide⟩

/-- C6 (amended): every missing-file validation error names the
offending path (quoted) and carries a field-specific message
(credentials vs. cert vs. key), but not the scrape job identity. -/
theorem missing_file_error_context (fs : FS) (cfg : PromConfig) (e : String)
    (hnf : unsupportedFeatures cfg = [])
    (he : promValidate fs cfg = .error e) :
    ∃ fn, fn ≠ "" ∧ fs fn = false ∧ goStringsContains e (goQuote fn) = true ∧
      (goStringsContains e "authorization credentials file" = true ∨
        goStringsContains e "client cert file" = true ∨
        goStringsContains e "client key file" = true) := by
  have hv : promValidate fs cfg = headOr (fileErrList fs cfg.scrapeConfigs) := by
    unfold promValidate
    rw [hnf]
    exact checkScrapeConfigs_headOr fs cfg.scrapeConfigs
  rw [hv] at he
  have hmem : e ∈ fileErrList fs cfg.scrapeConfigs := by
    cases hl : fileErrList fs cfg.scrapeConfigs with
    | nil =>
      rw [hl] at he
      exact Except.noConfusion he
    | cons a rest =>
      rw [hl] at he
      injection he with h4
      rw [← h4]
      exact List.mem_cons_self a rest
  obtain ⟨fn, h1, h2, h3⟩ := fileErrList_shape fs cfg.scrapeConfigs e hmem
  refine ⟨fn, h1, h2, ?_, ?_⟩
  · rcases h3 with h3 | h3 | h3 <;> (rw [h3]; exact errMsg_contains_quote _ fn _)
  · rcases h3 with h3 | h3 | h3
    · exact Or.inl (by rw [h3]; exact errMsg_contains_label _ fn _ _ (by decide))
    · exact Or.inr (Or.inl (by rw [h3]; exact errMsg_contains_label _ fn _ _ (by decide)))
    · exact Or.inr (Or.inr (by rw [h3]; exact errMsg_contains_label _ fn _ _ (by decide)))

/-- C6 witness: the amended statement evaluated at a concrete failing
configuration. -/
theorem missing_file_error_context_witness :
    ∃ fn, fn ≠ "" ∧ (fun _ => false : FS) fn = false ∧
      goStringsContains ("error checking authorization credentials file \"/nope\": " ++
        "stat /nope: no such file or directory") (goQuote fn) = true ∧
      (goStringsContains ("error checking authorization credentials file \"/nope\": " ++
          "stat /nope: no such file or directory") "authorization credentials file" = true ∨
        goStringsContains ("error checking authorization credentials file \"/nope\": " ++
          "stat /nope: no such file or directory") "client cert file" = true ∨
        goStringsContains ("error checking authorization credentials file \"/nope\": " ++
          "stat /nope: no such file or directory") "client key file" = true) :=
  missing_file_error_context (fun _ => false)
    ⟨[⟨"myjob", ⟨some ⟨"/nope"⟩, ⟨"", ""⟩⟩, []⟩], [], [], [], ⟨[], []⟩⟩ _ rfl rfl

/-- Is a discovery entry the kubernetes variant? -/
def isKubernetesSD : ServiceDiscoveryConfig → Bool
  | ServiceDiscoveryConfig.kubernetesSD _ => true
  | _ => false

/-- Restrict every job's discovery list to its kubernetes entries. -/
def filterK8sOnly (cfg : PromConfig) : PromConfig :=
  { cfg with scrapeConfigs := cfg.scrapeConfigs.map fun sc =>
      { sc with serviceDiscoveryConfigs := sc.serviceDiscoveryConfigs.filter isKubernetesSD } }

theorem checkSDList_filter (fs : FS) (l : List ServiceDiscoveryConfig) :
    checkSDList fs l = checkSDList fs (l.filter isKubernetesSD) := by
  induction l with
  | nil => rfl
  | cons c rest ih =>
    cases c with
    | kubernetesSD hcc =>
      rw [List.filter_cons_of_pos (by rfl)]
      show seqE _ (checkSDList fs rest) = seqE _ (checkSDList fs (rest.filter isKubernetesSD))
      rw [ih]
    | httpSD hcc =>
      rw [List.filter_cons_of_neg (by exact fun hc => Bool.false_ne_true hc)]
      exact ih
    | staticSD =>
      rw [List.filter_cons_of_neg (by exact fun hc => Bool.false_ne_true hc)]
      exact ih

theorem checkScrapeConfigs_filterK8s (fs : FS) (scs : List ScrapeConfig) :
    checkScrapeConfigs fs (scs.map fun sc =>
      { sc with serviceDiscoveryConfigs := sc.serviceDiscoveryConfigs.filter isKubernetesSD }) =
      checkScrapeConfigs fs scs := by
  induction scs with
  | nil => rfl
  | cons sc rest ih =>
    show seqE _ _ = seqE _ _
    rw [ih]
    show seqE (checkScrapeConfig fs
      { sc with serviceDiscoveryConfigs := sc.serviceDiscoveryConfigs.filter isKubernetesSD })
      (checkScrapeConfigs fs rest) = _
    unfold checkScrapeConfig
    rw [← checkSDList_filter]

/-- C8: the discovery loop TLS-checks exactly the kubernetes variant:
its result only depends on the kubernetes entries, a list without them
always passes, and pruning every non-kubernetes entry from a
configuration leaves the whole validation result unchanged. -/
theorem sd_tls_check_kubernetes_only (fs : FS) (l : List ServiceDiscoveryConfig)
    (cfg : PromConfig) :
    checkSDList fs l = checkSDList fs (l.filter isKubernetesSD) ∧
    ((∀ c ∈ l, isKubernetesSD c = false) → checkSDList fs l = .ok ()) ∧
    promValidate fs (filterK8sOnly cfg) = promValidate fs cfg := by
  refine ⟨checkSDList_filter fs l, ?_, ?_⟩
  · intro h
    rw [checkSDList_filter,
      List.filter_eq_nil_iff.mpr fun a ha => by rw [h a ha]; exact Bool.false_ne_true]
    rfl
  · unfold promValidate
    rw [show unsupportedFeatures (filterK8sOnly cfg) = unsupportedFeatures cfg from rfl]
    split
    · rfl
    · exact checkScrapeConfigs_filterK8s fs cfg.scrapeConfigs

/-- C8 witness: a discovery list with missing TLS files on non-kubernetes
variants still passes the discovery check. -/
theorem sd_tls_check_kubernetes_only_witness :
    checkSDList (fun _ => false)
      [ServiceDiscoveryConfig.httpSD ⟨none, ⟨"/x", "/y"⟩⟩, ServiceDiscoveryConfig.staticSD] =
      .ok () :=
  (sd_tls_check_kubernetes_only (fun _ => false)
    [ServiceDiscoveryConfig.httpSD ⟨none, ⟨"/x", "/y"⟩⟩, ServiceDiscoveryConfig.staticSD]
    ⟨[], [], [], [], ⟨[], []⟩⟩).2.1 (by decide)

/-- C9: none of the three `Validate` methods mutates its receiver, and
re-running any of them on the unchanged input yields the identical
result. -/
theorem validate_idempotent_no_mutation (cfg : Config) (ta : TargetAllocator)
    (fs : FS) (pc : PromConfig) :
    (configValidateSt cfg).2 = cfg ∧
    configValidateSt (configValidateSt cfg).2 = configValidateSt cfg ∧
    (configValidateSt cfg).1 = configValidate cfg ∧
    (taValidateSt ta).2 = ta ∧
    taValidateSt (taValidateSt ta).2 = taValidateSt ta ∧
    (taValidateSt ta).1 = taValidate ta ∧
    (promValidateSt fs pc).2 = pc ∧
    promValidateSt fs (promValidateSt fs pc).2 = promValidateSt fs pc ∧
    (promValidateSt fs pc).1 = promValidate fs pc := by
  rw [configValidateSt_eq, taValidateSt_eq, promValidateSt_eq]
  exact ⟨rfl, by rw [configValidateSt_eq], rfl, rfl, by rw [taValidateSt_eq], rfl, rfl,
    by rw [promValidateSt_eq], rfl⟩

end PromReceiver
